import Mathlib

/- Shallow embedding of the dataset-detection heuristic and of the upload API
   helpers of the IS2638_Finals frontend:
     - src/frontend/src/pages/UploadPage.jsx (tokenizeHeader, KEYWORDS,
       pickBestMatch, detectDatasetFromCSV, detectDatasetFromFile)
     - src/frontend/src/api/api.js (uploadFile, processUpload)

   Modelling conventions:
     - JavaScript strings are modelled as Lean String (a list of characters).
       toLowerCase, trim and the regex classes are modelled on their ASCII
       behaviour, on which the JavaScript (Unicode) versions agree for every
       input exercised here.
     - Scores are JavaScript doubles built by repeatedly adding 1 or 0.7 to 0.
       They are modelled exactly, scaled by 10 into Nat (adding 10 per token
       match and 7 per filename match).  This preserves comparisons and
       equality of the doubles the source computes: every reachable score is
       k + m * 0.7 with m ≤ 6 filename matches, distinct exact values differ
       by at least 1/10 while the accumulated double rounding error is far
       smaller, and equal exact values arise only from identical (k, m) and
       hence bit-identical float computations.  The 0.7-weighted rational
       reading of a score is datasetScore / 10, see the C4 theorem.
     - The FileReader / file.text() suspension is modelled by making the file
       content an Option String: none means the content cannot be read as
       text.  A promise that never settles is modelled as the result none of
       detectDatasetFromFile. -/

/-- Characters of the delimiter class in tokenizeHeader's split regex. -/
def isDelimChar (c : Char) : Bool :=
  c == ',' || c == ';' || c == '\t' || c == '|'

/-- ASCII part of the JavaScript whitespace class (space, tab, LF, CR, VT, FF). -/
def isWsChar (c : Char) : Bool :=
  c == ' ' || c == '\t' || c == '\n' || c == '\r' || c == '\x0b' || c == '\x0c'

/-- Characters of the replacement class in the tokenizer regex. -/
def isSepChar (c : Char) : Bool := isWsChar c || c == '-'

/-- JavaScript String.prototype.split on a single-character class: every
delimiter occurrence splits, empty fields are kept. -/
def splitListBy (p : Char → Bool) : List Char → List (List Char)
  | [] => [[]]
  | c :: rest =>
    if p c then [] :: splitListBy p rest
    else
      match splitListBy p rest with
      | [] => [[c]]
      | g :: gs => (c :: g) :: gs

/-- JavaScript String.prototype.trim (restricted to ASCII whitespace). -/
def trimL (l : List Char) : List Char :=
  ((l.dropWhile isWsChar).reverse.dropWhile isWsChar).reverse

/-- Case table of JavaScript toLowerCase restricted to ASCII. -/
def upperLowerTable : List (Char × Char) :=
  [('A', 'a'), ('B', 'b'), ('C', 'c'), ('D', 'd'), ('E', 'e'), ('F', 'f'),
   ('G', 'g'), ('H', 'h'), ('I', 'i'), ('J', 'j'), ('K', 'k'), ('L', 'l'),
   ('M', 'm'), ('N', 'n'), ('O', 'o'), ('P', 'p'), ('Q', 'q'), ('R', 'r'),
   ('S', 's'), ('T', 't'), ('U', 'u'), ('V', 'v'), ('W', 'w'), ('X', 'x'),
   ('Y', 'y'), ('Z', 'z')]

/-- Lowercase one character (ASCII). -/
def lowerChar (c : Char) : Char :=
  match upperLowerTable.find? (fun p => p.1 == c) with
  | some p => p.2
  | none => c

/-- JavaScript toLowerCase (ASCII fragment). -/
def toLowerStr (s : String) : String := String.mk (s.data.map lowerChar)

/-- Replace every maximal run of whitespace or hyphen characters with a single
underscore, as the regex replace of tokenizeHeader does.  The flag records
whether the previous character belonged to the current run. -/
def collapseSepsGo : Bool → List Char → List Char
  | _, [] => []
  | prevSep, c :: rest =>
    if isSepChar c then
      if prevSep then collapseSepsGo true rest
      else '_' :: collapseSepsGo true rest
    else c :: collapseSepsGo false rest

/-- Entry point of the run-collapsing replacement. -/
def collapseSeps (l : List Char) : List Char := collapseSepsGo false l

/-- Synonym canonicalization of tokenizeHeader: the two exact-match tables. -/
def canonToken (t : String) : String :=
  if t == "iata" || t == "iata_code" || t == "airport_code" then "airportkey"
  else if t == "icao" || t == "icao_code" then "icao"
  else t

/-- tokenizeHeader from UploadPage.jsx: split on the delimiter class, trim,
lowercase, collapse separator runs to underscores, drop empty fields, then
canonicalize synonyms. -/
def tokenizeHeader (line : String) : List String :=
  (((splitListBy isDelimChar line.data).map
        (fun f => String.mk (collapseSeps ((trimL f).map lowerChar)))).filter
      (fun t => t != "")).map canonToken

/-- Decidable prefix test on character lists. -/
def isPrefixL : List Char → List Char → Bool
  | [], _ => true
  | _ :: _, [] => false
  | a :: p, b :: s => a == b && isPrefixL p s

/-- Substring containment on character lists (first argument is the haystack). -/
def containsSubL : List Char → List Char → Bool
  | [], p => p.isEmpty
  | c :: rest, p => isPrefixL p (c :: rest) || containsSubL rest p

/-- JavaScript String.prototype.includes. -/
def strIncludes (s sub : String) : Bool := containsSubL s.data sub.data

/-- JavaScript String.prototype.endsWith. -/
def endsWithStr (s suffix : String) : Bool :=
  isPrefixL suffix.data.reverse s.data.reverse

/-- Keyword replace of underscores with the empty string (k.replace of
pickBestMatch). -/
def stripUnderscores (k : String) : String :=
  String.mk (k.data.filter (fun c => c != '_'))

/-- KEYWORDS of UploadPage.jsx, in object insertion order. -/
def KEYWORDS : List (String × List String) :=
  [("airline", ["airline", "airlinekey", "airlinename"]),
   ("passenger", ["passenger", "passengerkey", "fullname"]),
   ("flight", ["flightkey", "originairportkey", "destinationairportkey"]),
   ("airport", ["airportkey", "airport", "airportname", "city", "country", "icao"]),
   ("travelagency", ["agency", "booking", "saleamount"]),
   ("corporatesales", ["invoice", "transactionid", "corporate"])]

/-- Score of one dataset in pickBestMatch: the two accumulation loops of the
source, adding 1 per (token, keyword) substring match and 0.7 per keyword
whose underscore-stripped form occurs in the lowercased filename.  The score
is kept scaled by 10 (so 10 per token match, 7 per filename match), which is
order- and equality-faithful to the doubles the source computes. -/
def datasetScore (keys tokens : List String) (filename : String) : Nat :=
  keys.foldl
    (fun acc k =>
      if strIncludes (toLowerStr filename) (stripUnderscores k) then acc + 7 else acc)
    (tokens.foldl
      (fun acc t => keys.foldl (fun acc2 k => if strIncludes t k then acc2 + 10 else acc2) acc) 0)

/-- Head of the stable descending sort of pickBestMatch
(Object.entries(scores).sort((a, b) => b[1] - a[1])[0]): the first entry
carrying the maximum score.  On a tie the earlier entry wins because
JavaScript Array.prototype.sort is stable. -/
def bestEntry : List (String × Nat) → Option (String × Nat)
  | [] => none
  | e :: rest =>
    match bestEntry rest with
    | none => some e
    | some b => if b.2 > e.2 then some b else some e

/-- pickBestMatch of UploadPage.jsx. -/
def pickBestMatch (tokens : List String) (filename : String) : String :=
  match bestEntry (KEYWORDS.map (fun p => (p.1, datasetScore p.2 tokens filename))) with
  | some b => if b.2 > 0 then b.1 else "airline"
  | none => "airline"

/-- Drop one trailing carriage return, as the line-split regex consumes an
optional CR before each LF. -/
def dropTrailingCR (l : List Char) : List Char :=
  match l.reverse with
  | '\r' :: r => r.reverse
  | _ => l

/-- JavaScript text.split with the optional-CR newline regex. -/
def splitLines (s : String) : List String :=
  match (splitListBy (fun c => c == '\n') s.data).reverse with
  | [] => []
  | last :: revInit =>
    (revInit.reverse.map (fun l => String.mk (dropTrailingCR l))) ++ [String.mk last]

/-- First line that is nonempty and has a nonempty trim, or the empty string
(text.split(...).find((l) => l && l.trim()) || ""). -/
def firstNonBlankLine (text : String) : String :=
  ((splitLines text).find? (fun l => l != "" && String.mk (trimL l.data) != "")).getD ""

/-- The 64 KiB sample file.slice(0, 65536) read by detectDatasetFromCSV
(bytes coincide with characters on ASCII content). -/
def csvSample (c : String) : String := String.mk (c.data.take 65536)

/-- A browser File as the detector sees it: a name and a text content that
may fail to be read (none). -/
structure JsFile where
  name : String
  content : Option String

/-- Effect of a detection call on the tokensPreview state: left unchanged,
set to a token list, or cleared (setTokensPreview(null)). -/
inductive PreviewEffect
  | unchanged
  | set (tokens : List String)
  | cleared
deriving DecidableEq

/-- detectDatasetFromCSV: resolves with the header tokens of the 64 KiB
sample.  The source installs no onerror handler on its FileReader, so when
the read fails the promise never settles; that non-settlement is the value
none. -/
def detectDatasetFromCSV (f : JsFile) : Option (List String) :=
  match f.content with
  | none => none
  | some c => some (tokenizeHeader (firstNonBlankLine (csvSample c)))

/-- detectDatasetFromFile of UploadPage.jsx.  Result none means the call
never completes (awaiting a promise that never settles); some (d, eff) means
it returns dataset d after effect eff on tokensPreview. -/
def detectDatasetFromFile (f : JsFile) : Option (String × PreviewEffect) :=
  if endsWithStr (toLowerStr f.name) ".csv" then
    match detectDatasetFromCSV f with
    | none => none
    | some tokens =>
      some (pickBestMatch tokens (toLowerStr f.name), PreviewEffect.set tokens)
  else if strIncludes (toLowerStr f.name) "airport" then
    some ("airport", PreviewEffect.unchanged)
  else if strIncludes (toLowerStr f.name) "airline" then
    some ("airline", PreviewEffect.unchanged)
  else if strIncludes (toLowerStr f.name) "passeng" then
    some ("passenger", PreviewEffect.unchanged)
  else if strIncludes (toLowerStr f.name) "flight" then
    some ("flight", PreviewEffect.unchanged)
  else if strIncludes (toLowerStr f.name) "booking" || strIncludes (toLowerStr f.name) "travel" then
    some ("travelagency", PreviewEffect.unchanged)
  else if strIncludes (toLowerStr f.name) "corp" || strIncludes (toLowerStr f.name) "invoice" then
    some ("corporatesales", PreviewEffect.unchanged)
  else
    match f.content with
    | none => some ("airline", PreviewEffect.cleared)
    | some txt =>
      some (pickBestMatch (tokenizeHeader (firstNonBlankLine txt)) (toLowerStr f.name),
        PreviewEffect.set (tokenizeHeader (firstNonBlankLine txt)))

/-- True when none of the six non-CSV filename substring rules fires. -/
def noNameRule (n : String) : Bool :=
  !strIncludes n "airport" && !strIncludes n "airline" && !strIncludes n "passeng" &&
    !strIncludes n "flight" && !strIncludes n "booking" && !strIncludes n "travel" &&
    !strIncludes n "corp" && !strIncludes n "invoice"

/-- Token score as the spec words it: the number of (token, keyword) pairs
where the token contains the keyword as a substring. -/
def specTokenScore (keys tokens : List String) : Nat :=
  (tokens.map (fun t => (keys.filter (fun k => strIncludes t k)).length)).sum

/-- Filename score count as the spec words it: the number of keywords whose
underscore-stripped form is a substring of the lowercased filename. -/
def specFilenameMatches (keys : List String) (filename : String) : Nat :=
  (keys.filter (fun k => strIncludes (toLowerStr filename) (stripUnderscores k))).length

/-- Maximum of the second components of a score table (0 when empty). -/
def maxSnd (l : List (String × Nat)) : Nat := (l.map Prod.snd).foldr max 0

/-- Maximum dataset score for a token list and filename. -/
def maxScore (tokens : List String) (fn : String) : Nat :=
  (KEYWORDS.map (fun p => datasetScore p.2 tokens fn)).foldr max 0

/-- Modelled from the spec, with the tie-break amended to what the stable
sort of the source implements: the first dataset in catalog order attaining
the maximum score, and the fixed default airline exactly when the maximum
score is 0. -/
def pickBestMatchSpec (tokens : List String) (fn : String) : String :=
  if maxScore tokens fn = 0 then "airline"
  else
    match KEYWORDS.find? (fun p => decide (maxScore tokens fn ≤ datasetScore p.2 tokens fn)) with
    | some p => p.1
    | none => "airline"

/-- Parsed JSON body, abstracted: its JSON.stringify rendering and the
upload_id field (upload_id ?? uploadId, none for null or absent).  The
abstract parser argument of the api.js model returns none both for bodies
JSON.parse rejects and for falsy parse results ("null", "0", "false",
quoted-empty), which the source routes the same way in every field relevant
to success and error. -/
structure JsonVal where
  stringified : String
  uploadId : Option Int
deriving DecidableEq

/-- Payload carried by an API result: parsed JSON or the raw body text. -/
inductive ApiData
  | jsonData (j : JsonVal)
  | textData (t : String)
deriving DecidableEq

/-- Structured result both api.js helpers resolve with: a success flag and,
depending on the path, a status, a payload, an error message and an
upload_id.  None of the paths rejects, so the model is a total function
into this type. -/
structure ApiResult where
  success : Bool
  status : Option Nat
  data : Option ApiData
  error : Option String
  uploadIdF : Option Int
deriving DecidableEq

/-- Result shape of safeParseResponseText in api.js. -/
structure ParseResult where
  ok : Bool
  json : Option JsonVal
  text : String

/-- safeParseResponseText of api.js: empty text gives ok false, otherwise
try JSON.parse. -/
def safeParseResponseText (parse : String → Option JsonVal) (respText : String) : ParseResult :=
  if respText == "" then ⟨false, none, ""⟩
  else
    match parse respText with
    | some j => ⟨true, some j, respText⟩
    | none => ⟨false, none, respText⟩

/-- Outcome of the XMLHttpRequest performed by uploadFile: exactly one of
its three installed handlers fires. -/
inductive XhrOutcome
  | load (status : Nat) (responseText : String)
  | networkError
  | aborted

/-- Outcome of the fetch awaited by processUpload: a response, or a thrown
error captured by the surrounding try (modelled by its String(err) text). -/
inductive FetchOutcome
  | response (status : Nat) (bodyText : String)
  | thrown (errText : String)

/-- Fallback error text used when the body is empty and not JSON. -/
def httpMsg (status : Nat) : String := "HTTP " ++ toString status

/-- Multipart form built by uploadFile (file plus dataset || "airline"). -/
def uploadFileForm (file : JsFile) (dataset : String) : List (String × String) :=
  [("file", file.name), ("dataset", if dataset == "" then "airline" else dataset)]

/-- URL-encoded form built by processUpload (upload_id when non-null,
dataset when truthy). -/
def processUploadForm (uploadId : Option Int) (detected : Option String) : List (String × String) :=
  (match uploadId with
   | some i => [("upload_id", toString i)]
   | none => []) ++
  (match detected with
   | some d => if d != "" then [("dataset", d)] else []
   | none => [])

/-- uploadFile of api.js.  Every branch of the executor calls resolve:
a missing file, the three handlers, 2xx with or without a JSON body, and
non-2xx; reject is declared but never invoked. -/
def uploadFile (parse : String → Option JsonVal) (file : Option JsFile) (_dataset : String)
    (outcome : XhrOutcome) : ApiResult :=
  match file with
  | none => ⟨false, none, none, some "no file provided", none⟩
  | some _ =>
    match outcome with
    | XhrOutcome.load status text =>
      if 200 ≤ status ∧ status < 300 then
        match (safeParseResponseText parse text).json with
        | some j => ⟨true, some status, some (ApiData.jsonData j), none, j.uploadId⟩
        | none =>
          ⟨true, some status, some (ApiData.textData (safeParseResponseText parse text).text),
            none, none⟩
      else
        match (safeParseResponseText parse text).json with
        | some j => ⟨false, some status, some (ApiData.jsonData j), some j.stringified, none⟩
        | none =>
          ⟨false, some status, some (ApiData.textData (safeParseResponseText parse text).text),
            some
              (if (safeParseResponseText parse text).text != "" then
                (safeParseResponseText parse text).text
              else httpMsg status),
            none⟩
    | XhrOutcome.networkError => ⟨false, none, none, some "Network error during upload", none⟩
    | XhrOutcome.aborted => ⟨false, none, none, some "Upload aborted", none⟩

/-- processUpload of api.js: the whole body is inside try/catch, the catch
returns a success false result with String(err) as error. -/
def processUpload (parse : String → Option JsonVal) (_uploadId : Option Int)
    (_detected : Option String) (outcome : FetchOutcome) : ApiResult :=
  match outcome with
  | FetchOutcome.response status text =>
    if 200 ≤ status ∧ status < 300 then
      ⟨true, some status,
        some
          (match (safeParseResponseText parse text).json with
           | some j => ApiData.jsonData j
           | none => ApiData.textData (safeParseResponseText parse text).text),
        none, none⟩
    else
      ⟨false, some status,
        some
          (match (safeParseResponseText parse text).json with
           | some j => ApiData.jsonData j
           | none => ApiData.textData (safeParseResponseText parse text).text),
        some
          (match (safeParseResponseText parse text).json with
           | some j => j.stringified
           | none =>
             if (safeParseResponseText parse text).text != "" then
               (safeParseResponseText parse text).text
             else httpMsg status),
        none⟩
  | FetchOutcome.thrown errText => ⟨false, none, none, some errText, none⟩

lemma foldl_if_add {α : Type} (p : α → Bool) (w : Nat) :
    ∀ (l : List α) (init : Nat),
      l.foldl (fun acc x => if p x then acc + w else acc) init
        = init + w * (l.filter p).length := by
  intro l
  induction l with
  | nil => intro init; simp
  | cons a l ih =>
    intro init
    rw [List.foldl_cons]
    by_cases h : p a = true
    · rw [if_pos h, ih, List.filter_cons, if_pos h]
      simp [Nat.mul_add]
      ring
    · rw [if_neg h, ih, List.filter_cons, if_neg h]

lemma tokenFold_eq (keys : List String) :
    ∀ (tokens : List String) (init : Nat),
      tokens.foldl
          (fun acc t => keys.foldl (fun acc2 k => if strIncludes t k then acc2 + 10 else acc2) acc)
          init
        = init + 10 * specTokenScore keys tokens := by
  intro tokens
  induction tokens with
  | nil => intro init; simp [specTokenScore]
  | cons t ts ih =>
    intro init
    rw [List.foldl_cons, foldl_if_add, ih]
    simp [specTokenScore, Nat.mul_add]
    ring

lemma datasetScore_eq_counts (keys tokens : List String) (fn : String) :
    datasetScore keys tokens fn
      = 10 * specTokenScore keys tokens + 7 * specFilenameMatches keys fn := by
  unfold datasetScore
  rw [foldl_if_add, tokenFold_eq]
  simp [specFilenameMatches]

lemma datasetScore_pos (keys tokens : List String) (fn : String) (t k : String)
    (ht : t ∈ tokens) (hk : k ∈ keys) (hm : strIncludes t k = true) :
    0 < datasetScore keys tokens fn := by
  rw [datasetScore_eq_counts]
  have h1 : k ∈ keys.filter (fun k2 => strIncludes t k2) := List.mem_filter.mpr ⟨hk, hm⟩
  have h2 : 0 < (keys.filter (fun k2 => strIncludes t k2)).length :=
    List.length_pos.mpr (fun he => by rw [he] at h1; exact (List.not_mem_nil k) h1)
  have h3 : (keys.filter (fun k2 => strIncludes t k2)).length ≤ specTokenScore keys tokens := by
    refine List.single_le_sum (fun x _ => Nat.zero_le x) _ ?_
    exact List.mem_map_of_mem (fun t2 => (keys.filter (fun k2 => strIncludes t2 k2)).length) ht
  omega

lemma bestEntry_eq_none (l : List (String × Nat)) : bestEntry l = none ↔ l = [] := by
  cases l with
  | nil => simp [bestEntry]
  | cons e rest =>
    simp only [bestEntry]
    cases bestEntry rest with
    | none => simp
    | some b => by_cases h : b.2 > e.2 <;> simp [h]

lemma bestEntry_mem : ∀ {l : List (String × Nat)} {b : String × Nat},
    bestEntry l = some b → b ∈ l := by
  intro l
  induction l with
  | nil => intro b h; simp [bestEntry] at h
  | cons e rest ih =>
    intro b h
    simp only [bestEntry] at h
    cases hrest : bestEntry rest with
    | none =>
      simp only [hrest, Option.some.injEq] at h
      subst h
      exact List.mem_cons_self e rest
    | some c =>
      simp only [hrest] at h
      by_cases hgt : c.2 > e.2
      · rw [if_pos hgt] at h
        simp only [Option.some.injEq] at h
        subst h
        exact List.mem_cons_of_mem e (ih hrest)
      · rw [if_neg hgt] at h
        simp only [Option.some.injEq] at h
        subst h
        exact List.mem_cons_self e rest

lemma bestEntry_of_strictMax : ∀ (l : List (String × Nat)) (b : String × Nat),
    b ∈ l → (∀ x ∈ l, x ≠ b → x.2 < b.2) → bestEntry l = some b := by
  intro l
  induction l with
  | nil => intro b hb _; simp at hb
  | cons e rest ih =>
    intro b hb hmax
    by_cases heb : e = b
    · subst heb
      simp only [bestEntry]
      cases hr : bestEntry rest with
      | none => rfl
      | some c =>
        have hc := bestEntry_mem hr
        by_cases hce : c = e
        · subst hce; simp
        · have hlt : c.2 < e.2 := hmax c (List.mem_cons_of_mem e hc) hce
          have hngt : ¬ c.2 > e.2 := by omega
          simp [hngt]
    · have hbrest : b ∈ rest := by
        rcases List.mem_cons.mp hb with h | h
        · exact absurd h.symm heb
        · exact h
      have ihb := ih b hbrest (fun x hx hxb => hmax x (List.mem_cons_of_mem e hx) hxb)
      have hgt : b.2 > e.2 := hmax e (List.mem_cons_self e rest) heb
      simp only [bestEntry, ihb]
      rw [if_pos hgt]

lemma maxSnd_cons (e : String × Nat) (rest : List (String × Nat)) :
    maxSnd (e :: rest) = max e.2 (maxSnd rest) := rfl

lemma le_maxSnd : ∀ {l : List (String × Nat)} {x : String × Nat}, x ∈ l → x.2 ≤ maxSnd l := by
  intro l
  induction l with
  | nil => intro x h; simp at h
  | cons e rest ih =>
    intro x hx
    rcases List.mem_cons.mp hx with rfl | h
    · rw [maxSnd_cons]; exact le_max_left _ _
    · rw [maxSnd_cons]; exact le_trans (ih h) (le_max_right _ _)

lemma exists_maxSnd : ∀ {l : List (String × Nat)}, l ≠ [] → ∃ b ∈ l, b.2 = maxSnd l := by
  intro l
  induction l with
  | nil => intro h; exact absurd rfl h
  | cons e rest ih =>
    intro _
    by_cases hr : rest = []
    · subst hr
      exact ⟨e, List.mem_cons_self e [], by simp [maxSnd_cons, maxSnd]⟩
    · obtain ⟨b, hbmem, hbv⟩ := ih hr
      by_cases hc : maxSnd rest ≤ e.2
      · exact ⟨e, List.mem_cons_self e rest, by rw [maxSnd_cons, max_eq_left hc]⟩
      · push_neg at hc
        refine ⟨b, List.mem_cons_of_mem e hbmem, ?_⟩
        rw [maxSnd_cons, max_eq_right (le_of_lt hc), hbv]

lemma bestEntry_eq_find :
    ∀ (l : List (String × Nat)), bestEntry l = l.find? (fun x => decide (maxSnd l ≤ x.2)) := by
  intro l
  induction l with
  | nil => rfl
  | cons e rest ih =>
    cases hr : bestEntry rest with
    | none =>
      have hre : rest = [] := (bestEntry_eq_none rest).mp hr
      subst hre
      simp [bestEntry, maxSnd, List.find?]
    | some b =>
      have hbmem := bestEntry_mem hr
      have hble := le_maxSnd hbmem
      have hbge : maxSnd rest ≤ b.2 := by
        have := List.find?_some (ih ▸ hr)
        simpa using this
      have hbv : b.2 = maxSnd rest := le_antisymm hble hbge
      by_cases hgt : b.2 > e.2
      · have hm : maxSnd (e :: rest) = maxSnd rest := by
          rw [maxSnd_cons]; exact max_eq_right (by omega)
        have hpe : ¬ (fun x : String × Nat => decide (maxSnd (e :: rest) ≤ x.2)) e = true := by
          simp only [hm, decide_eq_true_eq]; omega
        simp only [bestEntry, hr]
        rw [if_pos hgt, List.find?_cons_of_neg rest hpe]
        simp only [hm, ← ih, hr]
      · have hm : maxSnd (e :: rest) = e.2 := by
          rw [maxSnd_cons]; exact max_eq_left (by omega)
        have hpe : (fun x : String × Nat => decide (maxSnd (e :: rest) ≤ x.2)) e = true := by
          simp [hm]
        simp only [bestEntry, hr]
        rw [if_neg hgt, List.find?_cons_of_pos rest hpe]

lemma lowerChar_fixed : ∀ p ∈ upperLowerTable, lowerChar p.2 = p.2 := by decide

lemma lowerChar_idem (c : Char) : lowerChar (lowerChar c) = lowerChar c := by
  cases hf : upperLowerTable.find? (fun p => p.1 == c) with
  | none =>
    have h1 : lowerChar c = c := by unfold lowerChar; rw [hf]
    rw [h1]
    exact h1
  | some p =>
    have hp := List.mem_of_find?_eq_some hf
    have h1 : lowerChar c = p.2 := by unfold lowerChar; rw [hf]
    rw [h1]
    exact lowerChar_fixed p hp

lemma toLowerStr_idem (s : String) : toLowerStr (toLowerStr s) = toLowerStr s := by
  show String.mk ((s.data.map lowerChar).map lowerChar) = String.mk (s.data.map lowerChar)
  rw [List.map_map]
  exact congrArg String.mk (List.map_congr_left (fun a _ => lowerChar_idem a))

lemma KEYWORDS_entry_eq : ∀ p ∈ KEYWORDS, ∀ q ∈ KEYWORDS, p.1 = q.1 → p = q := by decide

lemma pickBestMatch_some (tokens : List String) (fn : String) (b : String × Nat)
    (hb : bestEntry (KEYWORDS.map (fun p => (p.1, datasetScore p.2 tokens fn))) = some b) :
    pickBestMatch tokens fn = if b.2 > 0 then b.1 else "airline" := by
  unfold pickBestMatch
  rw [hb]

lemma pickBestMatch_none (tokens : List String) (fn : String)
    (hb : bestEntry (KEYWORDS.map (fun p => (p.1, datasetScore p.2 tokens fn))) = none) :
    pickBestMatch tokens fn = "airline" := by
  unfold pickBestMatch
  rw [hb]

lemma pickBestMatch_mem (tokens : List String) (fn : String) :
    pickBestMatch tokens fn
      ∈ (["airline", "passenger", "flight", "airport", "travelagency", "corporatesales"] :
          List String) := by
  cases hb : bestEntry (KEYWORDS.map (fun p => (p.1, datasetScore p.2 tokens fn))) with
  | none =>
    rw [pickBestMatch_none tokens fn hb]
    simp
  | some b =>
    rw [pickBestMatch_some tokens fn b hb]
    have hmem := bestEntry_mem hb
    obtain ⟨p, hp, rfl⟩ := List.mem_map.mp hmem
    by_cases h : datasetScore p.2 tokens fn > 0
    · rw [if_pos h]
      have : p.1 ∈ KEYWORDS.map Prod.fst := List.mem_map_of_mem Prod.fst hp
      simpa [KEYWORDS] using this
    · rw [if_neg h]
      simp

lemma pickBestMatch_of_all_zero (tokens : List String) (fn : String)
    (h : ∀ p ∈ KEYWORDS, datasetScore p.2 tokens fn = 0) :
    pickBestMatch tokens fn = "airline" := by
  cases hb : bestEntry (KEYWORDS.map (fun p => (p.1, datasetScore p.2 tokens fn))) with
  | none => exact pickBestMatch_none tokens fn hb
  | some b =>
    rw [pickBestMatch_some tokens fn b hb]
    have hmem := bestEntry_mem hb
    obtain ⟨p, hp, rfl⟩ := List.mem_map.mp hmem
    simp [h p hp]

lemma pickBestMatch_of_dominant (tokens : List String) (fn : String) (d : String)
    (keys : List String) (hd : (d, keys) ∈ KEYWORDS)
    (hpos : 0 < datasetScore keys tokens fn)
    (hdom : ∀ p ∈ KEYWORDS, p.1 ≠ d →
      datasetScore p.2 tokens fn < datasetScore keys tokens fn) :
    pickBestMatch tokens fn = d := by
  have hb : (d, datasetScore keys tokens fn)
      ∈ KEYWORDS.map (fun p => (p.1, datasetScore p.2 tokens fn)) :=
    List.mem_map_of_mem (fun p => (p.1, datasetScore p.2 tokens fn)) hd
  have hmax : ∀ x ∈ KEYWORDS.map (fun p => (p.1, datasetScore p.2 tokens fn)),
      x ≠ (d, datasetScore keys tokens fn) → x.2 < datasetScore keys tokens fn := by
    intro x hx hne
    obtain ⟨p, hp, rfl⟩ := List.mem_map.mp hx
    by_cases hpd : p.1 = d
    · exfalso
      have hpe : p = (d, keys) := KEYWORDS_entry_eq p hp (d, keys) hd hpd
      rw [hpe] at hne
      exact hne rfl
    · exact hdom p hp hpd
  rw [pickBestMatch_some tokens fn _ (bestEntry_of_strictMax _ _ hb hmax)]
  simp [hpos]

/-- C1 counterexample: on the file named flights_q1.csv whose first line is
flightkey,originairportkey,destinationairportkey,date, detection does NOT
return flight, contrary to the claim: the airport entry outscores flight. -/
theorem flights_csv_not_flight :
    (detectDatasetFromFile ⟨"flights_q1.csv",
        some "flightkey,originairportkey,destinationairportkey,date"⟩).map Prod.fst
      ≠ some "flight" := by decide

/-- C1 (amended): the header of flights_q1.csv normalizes to the four listed
tokens and all three flight keywords match (flight scores 3 token matches),
but the airport keywords airportkey and airport each match both the origin
and destination tokens (4 token matches), so detection returns airport.
Scores are shown scaled by 10. -/
theorem flights_csv_detects_airport :
    tokenizeHeader "flightkey,originairportkey,destinationairportkey,date"
        = ["flightkey", "originairportkey", "destinationairportkey", "date"] ∧
    (KEYWORDS.map (fun p => datasetScore p.2
        (tokenizeHeader "flightkey,originairportkey,destinationairportkey,date")
        "flights_q1.csv"))
        = [0, 0, 30, 40, 0, 0] ∧
    detectDatasetFromFile ⟨"flights_q1.csv",
        some "flightkey,originairportkey,destinationairportkey,date"⟩
      = some ("airport", PreviewEffect.set
          ["flightkey", "originairportkey", "destinationairportkey", "date"]) := by
  refine ⟨by decide, by decide, by decide⟩

/-- C2 counterexample: the token passenger_invoice gives passenger and
corporatesales the tied maximum score (10 in scaled units), yet the detector
returns passenger, not the claimed default airline. -/
theorem pickBestMatch_positive_tie_cex :
    (KEYWORDS.map (fun p => datasetScore p.2 ["passenger_invoice"] "data.csv"))
        = [0, 10, 0, 0, 0, 10] ∧
    pickBestMatch ["passenger_invoice"] "data.csv" = "passenger" := by
  refine ⟨by decide, by decide⟩

/-- C2 (amended): for every token list and filename the detector returns the
first dataset in catalog order attaining the maximum score when that maximum
is positive (the stable sort makes earlier entries win ties), and the fixed
default airline exactly when the maximum score is 0, which is the policy
pickBestMatchSpec states verbatim. -/
theorem pickBestMatch_eq_spec (tokens : List String) (fn : String) :
    pickBestMatch tokens fn = pickBestMatchSpec tokens fn := by
  have hSne : KEYWORDS.map (fun p => (p.1, datasetScore p.2 tokens fn)) ≠ [] := by
    simp [KEYWORDS]
  have hms : maxSnd (KEYWORDS.map (fun p => (p.1, datasetScore p.2 tokens fn)))
      = maxScore tokens fn := by
    unfold maxSnd maxScore
    rw [List.map_map]
    exact congrArg (List.foldr max 0) (List.map_congr_left (fun a _ => rfl))
  by_cases h0 : maxScore tokens fn = 0
  · have hall : ∀ p ∈ KEYWORDS, datasetScore p.2 tokens fn = 0 := by
      intro p hp
      have hmem : (p.1, datasetScore p.2 tokens fn)
          ∈ KEYWORDS.map (fun p => (p.1, datasetScore p.2 tokens fn)) :=
        List.mem_map_of_mem (fun p => (p.1, datasetScore p.2 tokens fn)) hp
      have hle := le_maxSnd hmem
      rw [hms, h0] at hle
      omega
    rw [pickBestMatch_of_all_zero tokens fn hall]
    unfold pickBestMatchSpec
    rw [if_pos h0]
  · obtain ⟨b, hbmem, hbv⟩ := exists_maxSnd hSne
    have hEq := bestEntry_eq_find (KEYWORDS.map (fun p => (p.1, datasetScore p.2 tokens fn)))
    rw [List.find?_map] at hEq
    have hpredeq : ((fun x : String × Nat =>
          decide (maxSnd (KEYWORDS.map (fun p => (p.1, datasetScore p.2 tokens fn))) ≤ x.2))
            ∘ (fun p : String × List String => (p.1, datasetScore p.2 tokens fn)))
        = (fun p : String × List String =>
            decide (maxScore tokens fn ≤ datasetScore p.2 tokens fn)) := by
      funext p
      simp [Function.comp, hms]
    rw [hpredeq] at hEq
    cases hq : KEYWORDS.find?
        (fun p => decide (maxScore tokens fn ≤ datasetScore p.2 tokens fn)) with
    | none =>
      exfalso
      rw [List.find?_eq_none] at hq
      obtain ⟨p, hp, hfp⟩ := List.mem_map.mp hbmem
      apply hq p hp
      have hps : datasetScore p.2 tokens fn = maxScore tokens fn := by
        have h2 : (p.1, datasetScore p.2 tokens fn).2 = b.2 := by rw [hfp]
        simp only at h2
        rw [h2, hbv, hms]
      simp [hps]
    | some q =>
      rw [hq] at hEq
      have hEq2 : bestEntry (KEYWORDS.map (fun p => (p.1, datasetScore p.2 tokens fn)))
          = some (q.1, datasetScore q.2 tokens fn) := hEq
      rw [pickBestMatch_some tokens fn _ hEq2]
      have hqp : maxScore tokens fn ≤ datasetScore q.2 tokens fn := by
        have := List.find?_some hq
        simpa using this
      have hpos : datasetScore q.2 tokens fn > 0 := by omega
      show (if datasetScore q.2 tokens fn > 0 then q.1 else "airline") = pickBestMatchSpec tokens fn
      rw [if_pos hpos]
      unfold pickBestMatchSpec
      rw [if_neg h0, hq]

/-- C3 counterexample: in the header invoice,airlinekey the token invoice is
a substring match for a keyword (invoice) belonging to exactly one dataset,
corporatesales, yet detection of the CSV returns airline, because the other
token gives airline a higher score. -/
theorem unique_keyword_outscored_cex :
    (KEYWORDS.filter (fun p => p.2.any (fun k => strIncludes "invoice" k))).map Prod.fst
        = ["corporatesales"] ∧
    (detectDatasetFromFile ⟨"data.csv", some "invoice,airlinekey"⟩).map Prod.fst
        = some "airline" := by
  refine ⟨by decide, by decide⟩

/-- C3 (amended): for every CSV file whose header contains a token that is a
substring match for a keyword of a dataset, detection returns that dataset
provided that dataset strictly outscores every other dataset (the matched
keyword guarantees its score is positive). -/
theorem detect_csv_unique_keyword_dominant (f : JsFile) (c : String) (hc : f.content = some c)
    (hcsv : endsWithStr (toLowerStr f.name) ".csv" = true)
    (d : String) (keys : List String) (hd : (d, keys) ∈ KEYWORDS)
    (t k : String) (ht : t ∈ tokenizeHeader (firstNonBlankLine (csvSample c)))
    (hk : k ∈ keys) (hm : strIncludes t k = true)
    (hdom : ∀ p ∈ KEYWORDS, p.1 ≠ d →
      datasetScore p.2 (tokenizeHeader (firstNonBlankLine (csvSample c))) (toLowerStr f.name)
        < datasetScore keys (tokenizeHeader (firstNonBlankLine (csvSample c)))
            (toLowerStr f.name)) :
    (detectDatasetFromFile f).map Prod.fst = some d := by
  have hpos := datasetScore_pos keys _ (toLowerStr f.name) t k ht hk hm
  have hpick := pickBestMatch_of_dominant _ (toLowerStr f.name) d keys hd hpos hdom
  have hcsvTokens : detectDatasetFromCSV f
      = some (tokenizeHeader (firstNonBlankLine (csvSample c))) := by
    unfold detectDatasetFromCSV
    rw [hc]
  unfold detectDatasetFromFile
  rw [if_pos hcsv, hcsvTokens]
  show some (pickBestMatch (tokenizeHeader (firstNonBlankLine (csvSample c)))
      (toLowerStr f.name)) = some d
  rw [hpick]

/-- C3 witness: a CSV whose only header token is invoice, matching the
corporatesales keyword invoice, with corporatesales strictly dominating. -/
theorem detect_csv_unique_keyword_dominant_witness :
    (detectDatasetFromFile ⟨"data.csv", some "invoice"⟩).map Prod.fst
      = some "corporatesales" :=
  detect_csv_unique_keyword_dominant ⟨"data.csv", some "invoice"⟩ "invoice" rfl (by decide)
    "corporatesales" ["invoice", "transactionid", "corporate"] (by decide)
    "invoice" "invoice" (by decide) (by decide) (by decide) (by decide)

/-- C4: for every keyword set, token list and filename, the computed score
(scaled by 10 in the Nat model) is 10 times the number of matching
(token, keyword) pairs plus 7 per filename keyword match; equivalently, in
exact rational terms the score is tokenScore + 0.7 * filenameMatches. -/
theorem datasetScore_decomposition (keys tokens : List String) (fn : String) :
    datasetScore keys tokens fn
        = 10 * specTokenScore keys tokens + 7 * specFilenameMatches keys fn ∧
    (datasetScore keys tokens fn : ℚ) / 10
        = specTokenScore keys tokens + 7 / 10 * specFilenameMatches keys fn := by
  refine ⟨datasetScore_eq_counts keys tokens fn, ?_⟩
  rw [datasetScore_eq_counts]
  push_cast
  ring

/-- C5: the raw header line IATA Code, Flight-Key, Origin Airport Key
normalizes to exactly [airportkey, flight_key, origin_airport_key]: runs of
whitespace and hyphens collapse to one underscore and only the exact token
iata_code is rewritten by the synonym rule, so flight_key stays as is. -/
theorem tokenizeHeader_iata_example :
    tokenizeHeader "IATA Code, Flight-Key, Origin Airport Key"
      = ["airportkey", "flight_key", "origin_airport_key"] := by decide

/-- C6: for every file whose lowercased name does not end in .csv, a name
containing airport yields airport regardless of the content, and the
substring rules are checked in the fixed priority order airport, airline,
passeng, flight, booking/travel, corp/invoice. -/
theorem detect_nonCsv_priority (f : JsFile)
    (h : endsWithStr (toLowerStr f.name) ".csv" = false) :
    (strIncludes (toLowerStr f.name) "airport" = true →
      detectDatasetFromFile f = some ("airport", PreviewEffect.unchanged)) ∧
    (strIncludes (toLowerStr f.name) "airport" = false →
      strIncludes (toLowerStr f.name) "airline" = true →
      detectDatasetFromFile f = some ("airline", PreviewEffect.unchanged)) ∧
    (strIncludes (toLowerStr f.name) "airport" = false →
      strIncludes (toLowerStr f.name) "airline" = false →
      strIncludes (toLowerStr f.name) "passeng" = true →
      detectDatasetFromFile f = some ("passenger", PreviewEffect.unchanged)) ∧
    (strIncludes (toLowerStr f.name) "airport" = false →
      strIncludes (toLowerStr f.name) "airline" = false →
      strIncludes (toLowerStr f.name) "passeng" = false →
      strIncludes (toLowerStr f.name) "flight" = true →
      detectDatasetFromFile f = some ("flight", PreviewEffect.unchanged)) ∧
    (strIncludes (toLowerStr f.name) "airport" = false →
      strIncludes (toLowerStr f.name) "airline" = false →
      strIncludes (toLowerStr f.name) "passeng" = false →
      strIncludes (toLowerStr f.name) "flight" = false →
      (strIncludes (toLowerStr f.name) "booking" || strIncludes (toLowerStr f.name) "travel")
          = true →
      detectDatasetFromFile f = some ("travelagency", PreviewEffect.unchanged)) ∧
    (strIncludes (toLowerStr f.name) "airport" = false →
      strIncludes (toLowerStr f.name) "airline" = false →
      strIncludes (toLowerStr f.name) "passeng" = false →
      strIncludes (toLowerStr f.name) "flight" = false →
      (strIncludes (toLowerStr f.name) "booking" || strIncludes (toLowerStr f.name) "travel")
          = false →
      (strIncludes (toLowerStr f.name) "corp" || strIncludes (toLowerStr f.name) "invoice")
          = true →
      detectDatasetFromFile f = some ("corporatesales", PreviewEffect.unchanged)) := by
  refine ⟨?_, ?_, ?_, ?_, ?_, ?_⟩
  · intro h1
    unfold detectDatasetFromFile
    simp [h, h1]
  · intro h1 h2
    unfold detectDatasetFromFile
    simp [h, h1, h2]
  · intro h1 h2 h3
    unfold detectDatasetFromFile
    simp [h, h1, h2, h3]
  · intro h1 h2 h3 h4
    unfold detectDatasetFromFile
    simp [h, h1, h2, h3, h4]
  · intro h1 h2 h3 h4 h5
    unfold detectDatasetFromFile
    simp [h, h1, h2, h3, h4, h5]
  · intro h1 h2 h3 h4 h5 h6
    unfold detectDatasetFromFile
    simp [h, h1, h2, h3, h4, h5, h6]

/-- C6 witness: a non-CSV upper-case name containing airport, unreadable
content: the rule fires regardless of content. -/
theorem detect_nonCsv_priority_witness :
    detectDatasetFromFile ⟨"AIRPORT_list.txt", none⟩
      = some ("airport", PreviewEffect.unchanged) :=
  (detect_nonCsv_priority ⟨"AIRPORT_list.txt", none⟩ (by decide)).1 (by decide)

/-- C7 (code bug): the source installs no onerror handler on the FileReader
of detectDatasetFromCSV, so on a CSV whose content cannot be read the
promise never settles and detection never completes (modelled as none),
instead of completing with the default airline as the claim states; on the
fallback path (non-CSV name matching no substring rule) the failure is
caught and detection does return airline with the token preview cleared. -/
theorem detect_csv_unreadable_hangs :
    detectDatasetFromFile ⟨"data.csv", none⟩ = none ∧
    detectDatasetFromFile ⟨"report.xyz", none⟩
      = some ("airline", PreviewEffect.cleared) := by
  refine ⟨by decide, by decide⟩

lemma six_ne_empty :
    ∀ x ∈ (["airline", "passenger", "flight", "airport", "travelagency", "corporatesales"] :
        List String), x ≠ "" := by decide

/-- C8: whenever detectDatasetFromFile completes, its dataset is one of the
six fixed identifiers and never empty; and a readable input matching no
filename rule and scoring zero on every keyword resolves to the default
airline. -/
theorem detect_closed_set (f : JsFile) :
    (∀ d eff, detectDatasetFromFile f = some (d, eff) →
      d ≠ "" ∧
        d ∈ (["airline", "passenger", "flight", "airport", "travelagency", "corporatesales"] :
          List String)) ∧
    (∀ c, f.content = some c → noNameRule (toLowerStr f.name) = true →
      (∀ p ∈ KEYWORDS,
        datasetScore p.2 (tokenizeHeader (firstNonBlankLine (csvSample c)))
          (toLowerStr f.name) = 0) →
      (∀ p ∈ KEYWORDS,
        datasetScore p.2 (tokenizeHeader (firstNonBlankLine c)) (toLowerStr f.name) = 0) →
      (detectDatasetFromFile f).map Prod.fst = some "airline") := by
  constructor
  · intro d eff h
    have hdmem :
        d ∈ (["airline", "passenger", "flight", "airport", "travelagency", "corporatesales"] :
          List String) := by
      unfold detectDatasetFromFile at h
      repeat' split at h
      all_goals
        (first
          | exact Option.noConfusion h
          | (simp only [Option.some.injEq, Prod.mk.injEq] at h
             obtain ⟨h1, -⟩ := h
             rw [← h1]
             first
               | exact pickBestMatch_mem _ _
               | decide))
    exact ⟨six_ne_empty d hdmem, hdmem⟩
  · intro c hc hrule hz1 hz2
    by_cases hcsv : endsWithStr (toLowerStr f.name) ".csv" = true
    · have hcsvTokens : detectDatasetFromCSV f
          = some (tokenizeHeader (firstNonBlankLine (csvSample c))) := by
        unfold detectDatasetFromCSV
        rw [hc]
      unfold detectDatasetFromFile
      rw [if_pos hcsv, hcsvTokens]
      show some (pickBestMatch (tokenizeHeader (firstNonBlankLine (csvSample c)))
          (toLowerStr f.name)) = some "airline"
      rw [pickBestMatch_of_all_zero _ _ hz1]
    · simp only [noNameRule, Bool.and_eq_true, Bool.not_eq_true', and_assoc] at hrule
      obtain ⟨h1, h2, h3, h4, h5, h6, h7, h8⟩ := hrule
      unfold detectDatasetFromFile
      rw [if_neg hcsv]
      simp only [h1, h2, h3, h4, h5, h6, h7, h8, Bool.or_self, Bool.false_eq_true, if_false]
      rw [hc]
      show some (pickBestMatch (tokenizeHeader (firstNonBlankLine c))
          (toLowerStr f.name)) = some "airline"
      rw [pickBestMatch_of_all_zero _ _ hz2]

/-- C8 witness: a file with an unrecognized name and header resolves to the
default airline, and the completed result is in the closed identifier set. -/
theorem detect_closed_set_witness :
    ((detectDatasetFromFile ⟨"zzz.bin", some "foo,bar"⟩).map Prod.fst = some "airline") ∧
    ("airline" ≠ "" ∧
      "airline" ∈ (["airline", "passenger", "flight", "airport", "travelagency",
        "corporatesales"] : List String)) :=
  ⟨(detect_closed_set ⟨"zzz.bin", some "foo,bar"⟩).2 "foo,bar" rfl (by decide) (by decide)
      (by decide),
    (detect_closed_set ⟨"zzz.bin", some "foo,bar"⟩).1 "airline"
      (PreviewEffect.set ["foo", "bar"]) (by decide)⟩

/-- C9: for every parse outcome, file argument and transport outcome (2xx
with JSON or non-JSON body, non-2xx, network error, abort, thrown
exception), uploadFile and processUpload resolve with a structured result
whose success is a Bool, carrying an error message whenever success is
false; both are total functions into ApiResult, so nothing is raised past
their boundary. -/
theorem api_helpers_always_structured :
    (∀ (parse : String → Option JsonVal) (file : Option JsFile) (dataset : String)
        (outcome : XhrOutcome),
      (uploadFile parse file dataset outcome).success = true ∨
        ((uploadFile parse file dataset outcome).success = false ∧
          ((uploadFile parse file dataset outcome).error).isSome = true)) ∧
    (∀ (parse : String → Option JsonVal) (uploadId : Option Int) (detected : Option String)
        (outcome : FetchOutcome),
      (processUpload parse uploadId detected outcome).success = true ∨
        ((processUpload parse uploadId detected outcome).success = false ∧
          ((processUpload parse uploadId detected outcome).error).isSome = true)) := by
  constructor
  · intro parse file dataset outcome
    cases file with
    | none => right; exact ⟨rfl, rfl⟩
    | some f =>
      cases outcome with
      | load status text =>
        by_cases h : 200 ≤ status ∧ status < 300
        · left
          cases hj : (safeParseResponseText parse text).json with
          | none => simp [uploadFile, h, hj]
          | some j => simp [uploadFile, h, hj]
        · right
          cases hj : (safeParseResponseText parse text).json with
          | none => simp [uploadFile, h, hj]
          | some j => simp [uploadFile, h, hj]
      | networkError => right; exact ⟨rfl, rfl⟩
      | aborted => right; exact ⟨rfl, rfl⟩
  · intro parse uploadId detected outcome
    cases outcome with
    | response status text =>
      by_cases h : 200 ≤ status ∧ status < 300
      · left
        simp [processUpload, h]
      · right
        simp [processUpload, h]
    | thrown errText => right; exact ⟨rfl, rfl⟩

lemma detect_lower_name (f : JsFile) :
    detectDatasetFromFile f = detectDatasetFromFile ⟨toLowerStr f.name, f.content⟩ := by
  unfold detectDatasetFromFile detectDatasetFromCSV
  simp only [toLowerStr_idem]

/-- C10: detectDatasetFromFile lowercases the filename before any check, so
detection is invariant under lowercasing the name, the scorer is
case-insensitive in the filename, DATA.CSV takes the CSV path whatever its
content, and the non-CSV file AIRPORT.TXT is detected as airport. -/
theorem detect_case_insensitive :
    (∀ f : JsFile,
      detectDatasetFromFile f = detectDatasetFromFile ⟨toLowerStr f.name, f.content⟩) ∧
    (∀ (tokens : List String) (fn : String),
      pickBestMatch tokens fn = pickBestMatch tokens (toLowerStr fn)) ∧
    (∀ c : String,
      detectDatasetFromFile ⟨"DATA.CSV", some c⟩
        = some (pickBestMatch (tokenizeHeader (firstNonBlankLine (csvSample c))) "data.csv",
            PreviewEffect.set (tokenizeHeader (firstNonBlankLine (csvSample c))))) ∧
    detectDatasetFromFile ⟨"AIRPORT.TXT", some "anything"⟩
      = some ("airport", PreviewEffect.unchanged) := by
  refine ⟨detect_lower_name, ?_, ?_, by decide⟩
  · intro tokens fn
    have hsc : (fun p : String × List String => (p.1, datasetScore p.2 tokens fn))
        = (fun p : String × List String => (p.1, datasetScore p.2 tokens (toLowerStr fn))) := by
      funext p
      unfold datasetScore
      rw [toLowerStr_idem]
    unfold pickBestMatch
    rw [hsc]
  · intro c
    rfl
